import Mathlib

/-!
Verification of the streaming momentum-scanner core of app.py.

Modelling conventions (shallow embedding of app.py):
* Python floats (prices, thresholds, elapsed seconds) are modelled as exact
  rationals.
* A datetime value is modelled as a rational number of seconds; the wall-clock
  minute label produced by strftime with format HH:MM is modelled as the
  minute-of-day integer (floor t / 60) mod 1440, so a key drops the date
  exactly as the HH:MM string does.  The interval-key string
  sym + underscore + HH:MM is modelled as the pair (sym, minute-of-day),
  which induces the same equivalence classes because HH:MM always renders as
  five characters.
* The shared dictionary st.session_state.shared_data is the structure St;
  the per-symbol history dict is an association list.
* A Python exception escaping on_message (ZeroDivisionError at line 80 when
  the oldest retained price is zero) is modelled by the fault flag of StepR;
  on a fault the history mutation of lines 66-71 has already happened while
  lines 99-101 never run, which the fault branch reproduces.
* The alert dict of lines 84-89 keeps the raw percentage change instead of
  the formatted two-decimal string; the fields are otherwise those of the
  source.
-/

set_option maxRecDepth 20000

namespace MomentumScanner

/-- Alert record built at app.py lines 84-89: Time, Symbol, Move%, LTP.
The timestamp is kept as the tick time and the move as the raw rational. -/
structure Alert where
  time : ℚ
  symbol : String
  movePct : ℚ
  ltp : ℚ
  deriving DecidableEq, Repr

/-- The shared mutable dictionary created at app.py lines 17-28, restricted to
the fields on_message reads or writes (and the two it leaves alone). -/
structure St where
  positive : List Alert
  negative : List Alert
  history : List (String × List (ℚ × ℚ))
  intervals : List (String × ℤ)
  connected : Bool
  symbolsCount : ℕ
  lookback : ℚ
  percent : ℚ
  lastUpdate : ℚ
  deriving DecidableEq, Repr

/-- Dictionary read with lazy default: app.py line 66 creates the entry with
an empty list if absent, so reading an absent symbol yields the empty list. -/
def histGet (h : List (String × List (ℚ × ℚ))) (sym : String) : List (ℚ × ℚ) :=
  match h.find? fun p => decide (p.1 = sym) with
  | some p => p.2
  | none => []

/-- Dictionary write: replace the binding of sym, or append a fresh binding
(the lazy initialization of line 66 followed by the assignment of line 71). -/
def histSet : List (String × List (ℚ × ℚ)) → String → List (ℚ × ℚ) →
    List (String × List (ℚ × ℚ))
  | [], sym, v => [(sym, v)]
  | (s, w) :: t, sym, v =>
    if s = sym then (sym, v) :: t else (s, w) :: histSet t sym v

/-- Minute-of-day of a timestamp: the information content of
now.strftime with format HH:MM at line 81 (hour and minute, no date). -/
def minuteOfDay (t : ℚ) : ℤ :=
  (⌊t⌋.ediv 60).emod 1440

/-- Interval key of line 81: symbol plus minute-truncated wall-clock time. -/
def intervalKey (sym : String) (t : ℚ) : String × ℤ :=
  (sym, minuteOfDay t)

/-- Key of an already-built alert (the key its emitting tick used). -/
def keyOf (a : Alert) : String × ℤ :=
  (a.symbol, minuteOfDay a.time)

/-- History update of app.py lines 66-71: append (now, ltp), then keep the
samples with timestamp at least now - lookback. -/
def trimOld (data : St) (sym : String) (v now : ℚ) : List (ℚ × ℚ) :=
  (histGet data.history sym ++ [(now, v)]).filter fun s =>
    decide (now - data.lookback ≤ s.1)

/-- State after the history mutation of lines 66-71 (ledgers untouched). -/
def afterHist (data : St) (sym : String) (v now : ℚ) : St :=
  ⟨data.positive, data.negative, histSet data.history sym (trimOld data sym v now),
   data.intervals, data.connected, data.symbolsCount,
   data.lookback, data.percent, data.lastUpdate⟩

/-- Momentum-calc logic of app.py lines 73-96, acting on the state data1 that
already holds the trimmed history hist.  Returns none when line 80 would
raise ZeroDivisionError (start price zero), otherwise the mutated state and
the alert inserted, if any.  Mirrors the source exactly: the length gate of
line 74, the coverage gate of line 79, the dedup check of line 83, and the
if / elif routing of lines 91-96 in that order; the interval key is recorded
only in the two emitting branches (lines 93 and 96). -/
def momentumCalc (lb pc : ℚ) (sym : String) (v now : ℚ) (hist : List (ℚ × ℚ))
    (data1 : St) : Option (St × Option Alert) :=
  if 2 < hist.length then
    match hist.head? with
    | some (sdt, sp) =>
      if lb * (4/5) ≤ now - sdt then
        if sp = 0 then none
        else
          if intervalKey sym now ∈ data1.intervals then some (data1, none)
          else if pc ≤ (v - sp) / sp * 100 then
            some (⟨⟨now, sym, (v - sp) / sp * 100, v⟩ :: data1.positive, data1.negative,
                   data1.history, intervalKey sym now :: data1.intervals,
                   data1.connected, data1.symbolsCount,
                   data1.lookback, data1.percent, data1.lastUpdate⟩,
                  some ⟨now, sym, (v - sp) / sp * 100, v⟩)
          else if (v - sp) / sp * 100 ≤ -pc then
            some (⟨data1.positive, ⟨now, sym, (v - sp) / sp * 100, v⟩ :: data1.negative,
                   data1.history, intervalKey sym now :: data1.intervals,
                   data1.connected, data1.symbolsCount,
                   data1.lookback, data1.percent, data1.lastUpdate⟩,
                  some ⟨now, sym, (v - sp) / sp * 100, v⟩)
          else some (data1, none)
      else some (data1, none)
    | none => some (data1, none)
  else some (data1, none)

/-- Result of one on_message call: the state afterwards, whether the call
raised (ZeroDivisionError escaping the callback), and the alert it inserted
into a ledger, if any. -/
structure StepR where
  st : St
  fault : Bool
  emitted : Option Alert
  deriving DecidableEq, Repr

/-- Epilogue of app.py lines 99-101, run on every locked non-raising path:
truncate both ledgers to their first 50 entries and set last_update. -/
def finishTick (now : ℚ) (d : St) (e : Option Alert) : StepR :=
  ⟨⟨d.positive.take 50, d.negative.take 50, d.history, d.intervals,
    d.connected, d.symbolsCount, d.lookback, d.percent, now⟩, false, e⟩

/-- The on_message callback of app.py lines 52-101 for a well-formed message
dict carrying symbol sym and optional ltp, processed at wall-clock time now.
A missing ltp returns at line 60 before any mutation. -/
def on_message (sym : String) (ltp : Option ℚ) (now : ℚ) (data : St) : StepR :=
  match ltp with
  | none => ⟨data, false, none⟩
  | some v =>
    match momentumCalc data.lookback data.percent sym v now (trimOld data sym v now)
        (afterHist data sym v now) with
    | none => ⟨afterHist data sym v now, true, none⟩
    | some (d, e) => finishTick now d e

/-- One inbound tick message: symbol, optional last traded price, and the
wall-clock instant at which the callback fires (line 62). -/
structure Msg where
  sym : String
  ltp : Option ℚ
  now : ℚ
  deriving DecidableEq, Repr

/-- Sequential delivery of a stream of ticks into on_message, collecting the
alerts emitted along the way (the transport delivers ticks one at a time). -/
def runTicks : List Msg → St → St × List Alert
  | [], s => (s, [])
  | m :: ms, s =>
    let r := on_message m.sym m.ltp m.now s
    let p := runTicks ms r.st
    (p.1, r.emitted.toList ++ p.2)

/-- Initial shared state of app.py lines 17-28 with the two live-tunable
settings as parameters (lookback seconds and threshold percent). -/
def mkInit (lb pc : ℚ) : St :=
  ⟨[], [], [], [], false, 0, lb, pc, 0⟩

/-- Ledger insertion contract: prepend (line 92 or 95), then truncate to the
first 50 entries (line 99 or 100). -/
def ledgerInsert (a : Alert) (l : List Alert) : List Alert :=
  (a :: l).take 50

/-! Basic facts about the state helpers. -/

theorem histGet_histSet (h : List (String × List (ℚ × ℚ))) (sym : String)
    (v : List (ℚ × ℚ)) : histGet (histSet h sym v) sym = v := by
  induction h with
  | nil => simp [histSet, histGet, List.find?]
  | cons p t ih =>
    obtain ⟨s, w⟩ := p
    by_cases hs : s = sym
    · subst hs
      simp [histSet, histGet, List.find?]
    · simp only [histSet, if_neg hs, histGet, List.find?]
      rw [show (decide (s = sym)) = false by simpa using hs]
      simpa [histGet] using ih

theorem afterHist_history (data : St) (sym : String) (v now : ℚ) :
    (afterHist data sym v now).history = histSet data.history sym (trimOld data sym v now) :=
  rfl

theorem afterHist_intervals (data : St) (sym : String) (v now : ℚ) :
    (afterHist data sym v now).intervals = data.intervals := rfl

theorem afterHist_positive (data : St) (sym : String) (v now : ℚ) :
    (afterHist data sym v now).positive = data.positive := rfl

theorem afterHist_negative (data : St) (sym : String) (v now : ℚ) :
    (afterHist data sym v now).negative = data.negative := rfl

theorem finishTick_st_positive (now : ℚ) (d : St) (e : Option Alert) :
    (finishTick now d e).st.positive = d.positive.take 50 := rfl

theorem finishTick_st_negative (now : ℚ) (d : St) (e : Option Alert) :
    (finishTick now d e).st.negative = d.negative.take 50 := rfl

/-- Structural facts about one momentum-calc evaluation that returned without
raising: which fields it can touch, how the interval set grows, and what must
have been true when an alert was produced. -/
theorem momentumCalc_spec {lb pc : ℚ} {sym : String} {v now : ℚ}
    {hist : List (ℚ × ℚ)} {data1 d : St} {e : Option Alert}
    (h : momentumCalc lb pc sym v now hist data1 = some (d, e)) :
    d.history = data1.history ∧ d.lookback = data1.lookback ∧
    d.percent = data1.percent ∧ d.lastUpdate = data1.lastUpdate ∧
    d.connected = data1.connected ∧ d.symbolsCount = data1.symbolsCount ∧
    (∀ k ∈ data1.intervals, k ∈ d.intervals) ∧
    (d.positive = data1.positive ∨ d.negative = data1.negative) ∧
    (e = none → d = data1) ∧
    (∀ a : Alert, e = some a →
      a.symbol = sym ∧ a.time = now ∧
      intervalKey sym now ∉ data1.intervals ∧ intervalKey sym now ∈ d.intervals) := by
  unfold momentumCalc at h
  split at h
  · split at h
    · split at h
      · split at h
        · exact absurd h (by simp)
        · split at h
          · obtain ⟨rfl, rfl⟩ : data1 = d ∧ (none : Option Alert) = e := by
              simpa using h
            simp
          · split at h
            · obtain ⟨hd, he⟩ :
                  (⟨_ :: data1.positive, data1.negative, data1.history,
                    intervalKey sym now :: data1.intervals, data1.connected,
                    data1.symbolsCount, data1.lookback, data1.percent,
                    data1.lastUpdate⟩ : St) = d ∧
                  some (⟨now, sym, (v - _) / _ * 100, v⟩ : Alert) = e := by
                simpa using h
              subst hd
              subst he
              refine ⟨rfl, rfl, rfl, rfl, rfl, rfl, ?_, Or.inr rfl, by simp, ?_⟩
              · intro k hk; exact List.mem_cons_of_mem _ hk
              · rintro a ha
                obtain rfl : (⟨now, sym, _, v⟩ : Alert) = a := by simpa using ha
                refine ⟨rfl, rfl, by assumption, List.mem_cons_self _ _⟩
            · split at h
              · obtain ⟨hd, he⟩ :
                    (⟨data1.positive, _ :: data1.negative, data1.history,
                      intervalKey sym now :: data1.intervals, data1.connected,
                      data1.symbolsCount, data1.lookback, data1.percent,
                      data1.lastUpdate⟩ : St) = d ∧
                    some (⟨now, sym, (v - _) / _ * 100, v⟩ : Alert) = e := by
                  simpa using h
                subst hd
                subst he
                refine ⟨rfl, rfl, rfl, rfl, rfl, rfl, ?_, Or.inl rfl, by simp, ?_⟩
                · intro k hk; exact List.mem_cons_of_mem _ hk
                · rintro a ha
                  obtain rfl : (⟨now, sym, _, v⟩ : Alert) = a := by simpa using ha
                  refine ⟨rfl, rfl, by assumption, List.mem_cons_self _ _⟩
              · obtain ⟨rfl, rfl⟩ : data1 = d ∧ (none : Option Alert) = e := by
                  simpa using h
                simp
      · obtain ⟨rfl, rfl⟩ : data1 = d ∧ (none : Option Alert) = e := by simpa using h
        simp
    · obtain ⟨rfl, rfl⟩ : data1 = d ∧ (none : Option Alert) = e := by simpa using h
      simp
  · obtain ⟨rfl, rfl⟩ : data1 = d ∧ (none : Option Alert) = e := by simpa using h
    simp

/-- With too few samples (line 74 gate), momentum-calc does nothing. -/
theorem momentumCalc_short (lb pc : ℚ) (sym : String) (v now : ℚ)
    (hist : List (ℚ × ℚ)) (data1 : St) (hl : ¬ 2 < hist.length) :
    momentumCalc lb pc sym v now hist data1 = some (data1, none) := by
  unfold momentumCalc
  rw [if_neg hl]

/-- Without enough elapsed coverage (line 79 gate), momentum-calc does
nothing (whether or not the sample-count gate passed). -/
theorem momentumCalc_nocov (lb pc : ℚ) (sym : String) (v now sdt sp : ℚ)
    (hist : List (ℚ × ℚ)) (data1 : St)
    (hh : hist.head? = some (sdt, sp)) (hlt : now - sdt < lb * (4/5)) :
    momentumCalc lb pc sym v now hist data1 = some (data1, none) := by
  unfold momentumCalc
  split
  · rw [hh]
    simpa using fun hc => absurd hc (not_le.mpr hlt)
  · rfl

/-- Under all the gates of lines 74-83 (enough samples, enough coverage,
nonzero start price, fresh interval key) momentum-calc is exactly the
three-way threshold routing of lines 91-96. -/
theorem momentumCalc_eq (lb pc : ℚ) (sym : String) (v now sdt sp : ℚ)
    (hist : List (ℚ × ℚ)) (data1 : St)
    (hl : 2 < hist.length) (hh : hist.head? = some (sdt, sp))
    (hc : lb * (4/5) ≤ now - sdt) (hsp : sp ≠ 0)
    (hf : intervalKey sym now ∉ data1.intervals) :
    momentumCalc lb pc sym v now hist data1 =
      (if pc ≤ (v - sp) / sp * 100 then
        some (⟨⟨now, sym, (v - sp) / sp * 100, v⟩ :: data1.positive, data1.negative,
               data1.history, intervalKey sym now :: data1.intervals,
               data1.connected, data1.symbolsCount,
               data1.lookback, data1.percent, data1.lastUpdate⟩,
              some ⟨now, sym, (v - sp) / sp * 100, v⟩)
      else if (v - sp) / sp * 100 ≤ -pc then
        some (⟨data1.positive, ⟨now, sym, (v - sp) / sp * 100, v⟩ :: data1.negative,
               data1.history, intervalKey sym now :: data1.intervals,
               data1.connected, data1.symbolsCount,
               data1.lookback, data1.percent, data1.lastUpdate⟩,
              some ⟨now, sym, (v - sp) / sp * 100, v⟩)
      else some (data1, none)) := by
  unfold momentumCalc
  rw [if_pos hl, hh]
  simp only [if_pos hc, if_neg hsp, if_neg hf]

/-- A message with a missing price returns at line 60 before the lock:
nothing at all happens. -/
theorem on_message_none (sym : String) (now : ℚ) (data : St) :
    on_message sym none now data = ⟨data, false, none⟩ := rfl

theorem on_message_eval {sym : String} {v now : ℚ} {data d : St} {e : Option Alert}
    (h : momentumCalc data.lookback data.percent sym v now (trimOld data sym v now)
        (afterHist data sym v now) = some (d, e)) :
    on_message sym (some v) now data = finishTick now d e := by
  simp only [on_message]
  rw [h]

theorem on_message_fault {sym : String} {v now : ℚ} {data : St}
    (h : momentumCalc data.lookback data.percent sym v now (trimOld data sym v now)
        (afterHist data sym v now) = none) :
    on_message sym (some v) now data = ⟨afterHist data sym v now, true, none⟩ := by
  simp only [on_message]
  rw [h]

/-- Whatever happens on a priced tick (alert, no alert, or a raise after the
history assignment of line 71), the history afterwards is the appended and
trimmed one. -/
theorem on_message_history (sym : String) (v now : ℚ) (data : St) :
    (on_message sym (some v) now data).st.history =
      histSet data.history sym (trimOld data sym v now) := by
  cases h : momentumCalc data.lookback data.percent sym v now (trimOld data sym v now)
      (afterHist data sym v now) with
  | none => rw [on_message_fault h]; rfl
  | some p =>
    obtain ⟨d, e⟩ := p
    rw [on_message_eval h]
    exact (momentumCalc_spec h).1

/-- The seen-interval set only ever grows (there is no eviction anywhere in
on_message). -/
theorem on_message_intervals_mono (sym : String) (ltp : Option ℚ) (now : ℚ)
    (data : St) (k : String × ℤ) (hk : k ∈ data.intervals) :
    k ∈ (on_message sym ltp now data).st.intervals := by
  cases ltp with
  | none => exact hk
  | some v =>
    cases h : momentumCalc data.lookback data.percent sym v now (trimOld data sym v now)
        (afterHist data sym v now) with
    | none => rw [on_message_fault h]; exact hk
    | some p =>
      obtain ⟨d, e⟩ := p
      rw [on_message_eval h]
      exact ((momentumCalc_spec h).2.2.2.2.2.2.1) k hk

/-- An emitted alert carries the tick's symbol and time, its interval key was
fresh before the call, and is recorded afterwards. -/
theorem on_message_emit {sym : String} {ltp : Option ℚ} {now : ℚ} {data : St}
    {a : Alert} (h : (on_message sym ltp now data).emitted = some a) :
    a.symbol = sym ∧ a.time = now ∧ intervalKey sym now ∉ data.intervals ∧
      intervalKey sym now ∈ (on_message sym ltp now data).st.intervals := by
  cases ltp with
  | none => exact absurd h (by simp [on_message_none])
  | some v =>
    cases hm : momentumCalc data.lookback data.percent sym v now (trimOld data sym v now)
        (afterHist data sym v now) with
    | none => rw [on_message_fault hm] at h; exact absurd h (by simp)
    | some p =>
      obtain ⟨d, e⟩ := p
      rw [on_message_eval hm] at h ⊢
      have he : e = some a := h
      have hs := (momentumCalc_spec hm).2.2.2.2.2.2.2.2.2 a he
      exact ⟨hs.1, hs.2.1, hs.2.2.1, hs.2.2.2⟩

/-- Along any delivered tick stream, the emitted alerts carry pairwise
distinct interval keys, and every one of those keys was absent from the
seen-interval set at the start of the stream. -/
theorem runTicks_log_keys (ms : List Msg) (s : St) :
    List.Pairwise (fun a b => keyOf a ≠ keyOf b) (runTicks ms s).2 ∧
    ∀ a ∈ (runTicks ms s).2, keyOf a ∉ s.intervals := by
  induction ms generalizing s with
  | nil => simp [runTicks]
  | cons m ms ih =>
    obtain ⟨ihp, ihf⟩ := ih (on_message m.sym m.ltp m.now s).st
    have hmono := on_message_intervals_mono m.sym m.ltp m.now s
    cases he : (on_message m.sym m.ltp m.now s).emitted with
    | none =>
      constructor
      · simpa [runTicks, he] using ihp
      · intro a ha hin
        have ha' : a ∈ (runTicks ms (on_message m.sym m.ltp m.now s).st).2 := by
          simpa [runTicks, he] using ha
        exact ihf a ha' (hmono _ hin)
    | some a0 =>
      have hem := on_message_emit he
      have hkey : keyOf a0 = intervalKey m.sym m.now := by
        simp [keyOf, intervalKey, hem.1, hem.2.1]
      constructor
      · have hhead : ∀ b ∈ (runTicks ms (on_message m.sym m.ltp m.now s).st).2,
            keyOf a0 ≠ keyOf b := by
          intro b hb hkb
          exact ihf b hb (by rw [← hkb, hkey]; exact hem.2.2.2)
        simpa [runTicks, he] using ⟨hhead, ihp⟩
      · intro a ha
        have ha' : a = a0 ∨ a ∈ (runTicks ms (on_message m.sym m.ltp m.now s).st).2 := by
          simpa [runTicks, he] using ha
        rcases ha' with rfl | ha'
        · rw [hkey]; exact hem.2.2.1
        · intro hin
          exact ihf a ha' (hmono _ hin)

/-- A list with pairwise distinct keys holds at most one element of any
given key. -/
theorem pairwise_key_filter_le_one (k : String × ℤ) (l : List Alert)
    (h : List.Pairwise (fun a b => keyOf a ≠ keyOf b) l) :
    (l.filter fun a => decide (keyOf a = k)).length ≤ 1 := by
  induction l with
  | nil => simp
  | cons a t ih =>
    rcases List.pairwise_cons.mp h with ⟨ha, ht⟩
    by_cases hk : keyOf a = k
    · have : t.filter (fun a => decide (keyOf a = k)) = [] := by
        rw [List.filter_eq_nil_iff]
        intro b hb
        simp only [decide_eq_true_eq]
        intro hbk
        exact (ha b hb) (hk.trans hbk.symm)
      simp [List.filter_cons, hk, this]
    · simpa [List.filter_cons, hk] using ih ht

/-- Under all gates, a tick whose absolute move reaches the threshold makes
momentum-calc produce an alert (routing by the sign of the move). -/
theorem momentumCalc_qualify (lb pc : ℚ) (sym : String) (v now sdt sp : ℚ)
    (hist : List (ℚ × ℚ)) (data1 : St)
    (hl : 2 < hist.length) (hh : hist.head? = some (sdt, sp))
    (hc : lb * (4/5) ≤ now - sdt) (hsp : sp ≠ 0)
    (hf : intervalKey sym now ∉ data1.intervals)
    (hpc : 0 < pc) (habs : pc ≤ |(v - sp) / sp * 100|) :
    ∃ d : St, momentumCalc lb pc sym v now hist data1 =
      some (d, some ⟨now, sym, (v - sp) / sp * 100, v⟩) := by
  rw [momentumCalc_eq lb pc sym v now sdt sp hist data1 hl hh hc hsp hf]
  rcases abs_cases ((v - sp) / sp * 100) with ⟨he, _⟩ | ⟨he, hneg⟩
  · rw [if_pos (he ▸ habs)]
    exact ⟨_, rfl⟩
  · have h1 : ¬ pc ≤ (v - sp) / sp * 100 := by
      rw [not_le]; exact lt_of_lt_of_le hneg hpc.le
    have h2 : (v - sp) / sp * 100 ≤ -pc := by
      have : pc ≤ -((v - sp) / sp * 100) := he ▸ habs
      linarith
    rw [if_neg h1, if_pos h2]
    exact ⟨_, rfl⟩

/-- Auxiliary: prepending to an already-truncated list and truncating again
equals truncating the plain prepend. -/
theorem take_cons_take (a : Alert) (l : List Alert) (n : ℕ) :
    (a :: l.take n).take n = (a :: l).take n := by
  cases n with
  | zero => rfl
  | succ n =>
    simp only [List.take_succ_cons, List.take_take]
    rw [min_eq_left (Nat.le_succ n)]

/-- Folding ledger insertions from an empty ledger retains exactly the most
recent 50 alerts, newest first. -/
theorem foldl_ledgerInsert (l : List Alert) :
    l.foldl (fun acc a => ledgerInsert a acc) [] = l.reverse.take 50 := by
  induction l using List.reverseRecOn with
  | nil => rfl
  | append_singleton xs a ih =>
    rw [List.foldl_append, List.foldl_cons, List.foldl_nil, ih,
      List.reverse_append]
    simp [ledgerInsert, take_cons_take a xs.reverse 50]

/-- The minute-of-day label repeats after exactly one day (86400 seconds):
the HH:MM rendering of line 81 carries no date. -/
theorem minuteOfDay_add_day (t : ℚ) : minuteOfDay (t + 86400) = minuteOfDay t := by
  unfold minuteOfDay
  have hc : (86400 : ℚ) = ((86400 : ℤ) : ℚ) := by norm_num
  rw [hc, Int.floor_add_int]
  have h1 : ⌊t⌋ + 86400 = ⌊t⌋ + 1440 * 60 := by ring
  have h2 : (⌊t⌋ + 1440 * 60) / 60 = ⌊t⌋ / 60 + 1440 :=
    Int.add_mul_ediv_right ⌊t⌋ 1440 (by norm_num)
  have h3 : (⌊t⌋ / 60 + 1440) % 1440 = ⌊t⌋ / 60 % 1440 := by
    have h4 := Int.add_mul_emod_self_left (a := ⌊t⌋ / 60) (b := 1440) (c := 1)
    simp only [mul_one] at h4
    exact h4
  rw [h1]
  show ((⌊t⌋ + 1440 * 60) / 60) % 1440 = (⌊t⌋ / 60) % 1440
  rw [h2, h3]

/-- Splitting a delivered stream: run the prefix, then the suffix from the
state the prefix reached; the logs concatenate. -/
theorem runTicks_append (xs ys : List Msg) (s : St) :
    runTicks (xs ++ ys) s =
      ((runTicks ys (runTicks xs s).1).1,
       (runTicks xs s).2 ++ (runTicks ys (runTicks xs s).1).2) := by
  induction xs generalizing s with
  | nil => simp [runTicks]
  | cons m ms ih =>
    simp only [List.cons_append, runTicks, List.append_eq]
    rw [ih]
    simp [List.append_assoc]

/-! Concrete executions used to settle the behavioural claims.  All of them
use lookback 60 seconds and threshold 1 percent (the defaults of lines 25-26)
and drive a single symbol X. -/

/-- Two ticks whose first price is zero: accepted by on_message, since line 60
only rejects a missing price. -/
def c2msgs : List Msg := [⟨"X", some 0, 0⟩, ⟨"X", some 1, 10⟩]

/-- State reached after c2msgs: a zero price sits at the head of the window. -/
def c2pre : St := (runTicks c2msgs (mkInit 60 1)).1

theorem c2run_eval : runTicks c2msgs (mkInit 60 1) =
    (⟨[], [], [("X", [(0, 0), (10, 1)])], [], false, 0, 60, 1, 10⟩, []) := by
  have h1 : on_message "X" (some 0) 0 (mkInit 60 1) =
      ⟨⟨[], [], [("X", [(0, 0)])], [], false, 0, 60, 1, 0⟩, false, none⟩ := by
    with_unfolding_all decide
  have h2 : on_message "X" (some 1) 10
      (⟨[], [], [("X", [(0, 0)])], [], false, 0, 60, 1, 0⟩ : St) =
      ⟨⟨[], [], [("X", [(0, 0), (10, 1)])], [], false, 0, 60, 1, 10⟩, false, none⟩ := by
    with_unfolding_all decide
  simp only [c2msgs, runTicks, h1, h2, Option.toList, List.nil_append,
    List.append_nil, List.cons_append, List.singleton_append]

/-- A day-long scenario: a qualifying move in minute 1 of day zero, then a
qualifying move in minute 0 of day one. -/
def c5msgs : List Msg :=
  [⟨"X", some 100, 60⟩, ⟨"X", some 100, 90⟩, ⟨"X", some 102, 110⟩,
   ⟨"X", some 100, 86400⟩, ⟨"X", some 100, 86430⟩, ⟨"X", some 102, 86450⟩]

/-- State reached after c5msgs (two alerts: at 110 and at 86450). -/
def c5pre : St := (runTicks c5msgs (mkInit 60 1)).1

theorem c5run_eval : runTicks c5msgs (mkInit 60 1) =
    (⟨[⟨86450, "X", 2, 102⟩, ⟨110, "X", 2, 102⟩], [],
      [("X", [(86400, 100), (86430, 100), (86450, 102)])], [("X", 0), ("X", 1)],
      false, 0, 60, 1, 86450⟩,
     [⟨110, "X", 2, 102⟩, ⟨86450, "X", 2, 102⟩]) := by
  have hm450 : minuteOfDay 86450 = 0 := by with_unfolding_all decide
  have h1 : on_message "X" (some 100) 60 (mkInit 60 1) =
      ⟨⟨[], [], [("X", [(60, 100)])], [], false, 0, 60, 1, 60⟩, false, none⟩ := by
    with_unfolding_all decide
  have h2 : on_message "X" (some 100) 90
      (⟨[], [], [("X", [(60, 100)])], [], false, 0, 60, 1, 60⟩ : St) =
      ⟨⟨[], [], [("X", [(60, 100), (90, 100)])], [], false, 0, 60, 1, 90⟩,
       false, none⟩ := by
    with_unfolding_all decide
  have h3 : on_message "X" (some 102) 110
      (⟨[], [], [("X", [(60, 100), (90, 100)])], [], false, 0, 60, 1, 90⟩ : St) =
      ⟨⟨[⟨110, "X", 2, 102⟩], [], [("X", [(60, 100), (90, 100), (110, 102)])],
        [("X", 1)], false, 0, 60, 1, 110⟩, false, some ⟨110, "X", 2, 102⟩⟩ := by
    with_unfolding_all decide
  have h4 : on_message "X" (some 100) 86400
      (⟨[⟨110, "X", 2, 102⟩], [], [("X", [(60, 100), (90, 100), (110, 102)])],
        [("X", 1)], false, 0, 60, 1, 110⟩ : St) =
      ⟨⟨[⟨110, "X", 2, 102⟩], [], [("X", [(86400, 100)])],
        [("X", 1)], false, 0, 60, 1, 86400⟩, false, none⟩ := by
    norm_num [on_message, momentumCalc, trimOld, afterHist, histGet, histSet,
      finishTick, List.filter, List.find?]
  have h5 : on_message "X" (some 100) 86430
      (⟨[⟨110, "X", 2, 102⟩], [], [("X", [(86400, 100)])],
        [("X", 1)], false, 0, 60, 1, 86400⟩ : St) =
      ⟨⟨[⟨110, "X", 2, 102⟩], [], [("X", [(86400, 100), (86430, 100)])],
        [("X", 1)], false, 0, 60, 1, 86430⟩, false, none⟩ := by
    norm_num [on_message, momentumCalc, trimOld, afterHist, histGet, histSet,
      finishTick, List.filter, List.find?]
  have h6 : on_message "X" (some 102) 86450
      (⟨[⟨110, "X", 2, 102⟩], [], [("X", [(86400, 100), (86430, 100)])],
        [("X", 1)], false, 0, 60, 1, 86430⟩ : St) =
      ⟨⟨[⟨86450, "X", 2, 102⟩, ⟨110, "X", 2, 102⟩], [],
        [("X", [(86400, 100), (86430, 100), (86450, 102)])],
        [("X", 0), ("X", 1)], false, 0, 60, 1, 86450⟩, false,
       some ⟨86450, "X", 2, 102⟩⟩ := by
    norm_num [on_message, momentumCalc, trimOld, afterHist, histGet, histSet,
      finishTick, intervalKey, hm450, List.filter, List.find?]
  simp only [c5msgs, runTicks, h1, h2, h3, h4, h5, h6, Option.toList,
    List.nil_append, List.append_nil, List.cons_append, List.singleton_append]

/-- The qualifying tick of the minute after the 86450 alert is swallowed by
the day-old key: on_message at 86480 emits nothing from c5pre. -/
theorem c5next_eval : on_message "X" (some 102) 86480 c5pre =
    ⟨⟨[⟨86450, "X", 2, 102⟩, ⟨110, "X", 2, 102⟩], [],
      [("X", [(86430, 100), (86450, 102), (86480, 102)])], [("X", 0), ("X", 1)],
      false, 0, 60, 1, 86480⟩, false, none⟩ := by
  have hm480 : minuteOfDay 86480 = 1 := by with_unfolding_all decide
  have hpre : c5pre =
      ⟨[⟨86450, "X", 2, 102⟩, ⟨110, "X", 2, 102⟩], [],
       [("X", [(86400, 100), (86430, 100), (86450, 102)])], [("X", 0), ("X", 1)],
       false, 0, 60, 1, 86450⟩ := by
    rw [c5pre, c5run_eval]
  rw [hpre]
  norm_num [on_message, momentumCalc, trimOld, afterHist, histGet, histSet,
    finishTick, intervalKey, hm480, List.filter, List.find?]

/-- A qualifying move in minute 0 of day zero, then ticks rebuilding coverage
at the same wall-clock minute of day one. -/
def c9msgs : List Msg :=
  [⟨"X", some 100, 0⟩, ⟨"X", some 100, 30⟩, ⟨"X", some 102, 50⟩,
   ⟨"X", some 100, 86400⟩, ⟨"X", some 100, 86430⟩]

/-- State reached after c9msgs (one alert, key (X, minute 0) recorded). -/
def c9pre : St := (runTicks c9msgs (mkInit 60 1)).1

theorem c9run_eval : runTicks c9msgs (mkInit 60 1) =
    (⟨[⟨50, "X", 2, 102⟩], [], [("X", [(86400, 100), (86430, 100)])], [("X", 0)],
      false, 0, 60, 1, 86430⟩,
     [⟨50, "X", 2, 102⟩]) := by
  have h1 : on_message "X" (some 100) 0 (mkInit 60 1) =
      ⟨⟨[], [], [("X", [(0, 100)])], [], false, 0, 60, 1, 0⟩, false, none⟩ := by
    with_unfolding_all decide
  have h2 : on_message "X" (some 100) 30
      (⟨[], [], [("X", [(0, 100)])], [], false, 0, 60, 1, 0⟩ : St) =
      ⟨⟨[], [], [("X", [(0, 100), (30, 100)])], [], false, 0, 60, 1, 30⟩,
       false, none⟩ := by
    with_unfolding_all decide
  have h3 : on_message "X" (some 102) 50
      (⟨[], [], [("X", [(0, 100), (30, 100)])], [], false, 0, 60, 1, 30⟩ : St) =
      ⟨⟨[⟨50, "X", 2, 102⟩], [], [("X", [(0, 100), (30, 100), (50, 102)])],
        [("X", 0)], false, 0, 60, 1, 50⟩, false, some ⟨50, "X", 2, 102⟩⟩ := by
    with_unfolding_all decide
  have h4 : on_message "X" (some 100) 86400
      (⟨[⟨50, "X", 2, 102⟩], [], [("X", [(0, 100), (30, 100), (50, 102)])],
        [("X", 0)], false, 0, 60, 1, 50⟩ : St) =
      ⟨⟨[⟨50, "X", 2, 102⟩], [], [("X", [(86400, 100)])], [("X", 0)],
        false, 0, 60, 1, 86400⟩, false, none⟩ := by
    norm_num [on_message, momentumCalc, trimOld, afterHist, histGet, histSet,
      finishTick, List.filter, List.find?]
  have h5 : on_message "X" (some 100) 86430
      (⟨[⟨50, "X", 2, 102⟩], [], [("X", [(86400, 100)])], [("X", 0)],
        false, 0, 60, 1, 86400⟩ : St) =
      ⟨⟨[⟨50, "X", 2, 102⟩], [], [("X", [(86400, 100), (86430, 100)])], [("X", 0)],
        false, 0, 60, 1, 86430⟩, false, none⟩ := by
    norm_num [on_message, momentumCalc, trimOld, afterHist, histGet, histSet,
      finishTick, List.filter, List.find?]
  simp only [c9msgs, runTicks, h1, h2, h3, h4, h5, Option.toList,
    List.nil_append, List.append_nil, List.cons_append, List.singleton_append]

/-- On day one, at the same wall-clock minute as the day-zero alert, a fully
qualifying move is suppressed by the year-old key. -/
theorem c9next_eval : on_message "X" (some 102) 86450 c9pre =
    ⟨⟨[⟨50, "X", 2, 102⟩], [], [("X", [(86400, 100), (86430, 100), (86450, 102)])],
      [("X", 0)], false, 0, 60, 1, 86450⟩, false, none⟩ := by
  have hm450 : minuteOfDay 86450 = 0 := by with_unfolding_all decide
  have hpre : c9pre =
      ⟨[⟨50, "X", 2, 102⟩], [], [("X", [(86400, 100), (86430, 100)])], [("X", 0)],
       false, 0, 60, 1, 86430⟩ := by
    rw [c9pre, c9run_eval]
  rw [hpre]
  norm_num [on_message, momentumCalc, trimOld, afterHist, histGet, histSet,
    finishTick, intervalKey, hm450, List.filter, List.find?]

/-! Atomic slices of the locked writer region (lines 64-101), used to talk
about what a concurrent reader could observe between two statements of the
critical section. -/

/-- Writer slice one: the history mutation of lines 66-71. -/
def wHist (sym : String) (v now : ℚ) (s : St) : St :=
  afterHist s sym v now

/-- Writer slice two: the momentum calc and conditional ledger and key insert
of lines 73-96 (identity on the raising path, which the decomposition theorem
therefore excludes). -/
def wAlert (sym : String) (v now : ℚ) (s : St) : St :=
  match momentumCalc s.lookback s.percent sym v now (histGet s.history sym) s with
  | none => s
  | some (d, _) => d

/-- Writer slice three: the ledger truncations of lines 99-100. -/
def wTrunc (s : St) : St :=
  ⟨s.positive.take 50, s.negative.take 50, s.history, s.intervals,
   s.connected, s.symbolsCount, s.lookback, s.percent, s.lastUpdate⟩

/-- Writer slice four: the last_update write of line 101. -/
def wLast (now : ℚ) (s : St) : St :=
  ⟨s.positive, s.negative, s.history, s.intervals,
   s.connected, s.symbolsCount, s.lookback, s.percent, now⟩

/-- Whether the UI read loop of app.py lines 160-182 acquires data_lock
around its reads of shared_data (metrics at lines 162-164, ledger tables at
lines 171-182): it does not — no with-data_lock block appears anywhere in
the UI section; only the writer callback (line 64) and start_websocket
(line 108) take the lock. -/
def readerAcquiresLock : Bool := false

/-- A small mid-session state used by several witnesses: symbol X has two
samples forty-odd seconds old, lookback 60s, threshold 1 percent.  It is the
state runTicks reaches from the initial state after ticks (X,100) at t=0 and
t=30. -/
def wdata : St :=
  ⟨[], [], [("X", [(0, 100), (30, 100)])], [], false, 0, 60, 1, 30⟩

/-! The ten claims. -/

/-- Claim C1 (corrected).  The missing-price half of the claim holds: a tick
with absent ltp is a complete no-op (line 60 returns before the lock).  The
non-positive half fails on the code — line 60 tests only for None, so a tick
with a zero or negative price is appended to the history like any other
(second conjunct, stated for every price v with a nonneg lookback so that
the fresh sample survives its own trim). -/
theorem c1_missing_price_noop :
    (∀ (sym : String) (now : ℚ) (data : St),
      on_message sym none now data = ⟨data, false, none⟩) ∧
    (∀ (sym : String) (v now : ℚ) (data : St), 0 ≤ data.lookback →
      (now, v) ∈ histGet (on_message sym (some v) now data).st.history sym) := by
  constructor
  · intro sym now data
    rfl
  · intro sym v now data hlb
    rw [on_message_history, histGet_histSet]
    refine List.mem_filter.mpr
      ⟨List.mem_append_right _ (List.mem_singleton.mpr rfl), ?_⟩
    simpa using sub_le_self now hlb

/-- Witness for C1: price 0 at t=5 lands in the history of symbol X. -/
theorem c1_missing_price_noop_witness :
    ((5 : ℚ), (0 : ℚ)) ∈ histGet (on_message "X" (some 0) 5 (mkInit 60 1)).st.history "X" :=
  c1_missing_price_noop.2 "X" 0 5 (mkInit 60 1) (by with_unfolding_all decide)

/-- Counterexample to C1 as stated: a tick with the non-positive price 0 is
not a no-op — it mutates the history of its symbol. -/
theorem c1_counterexample :
    ¬ ((0 : ℚ) > 0) ∧
    (on_message "X" (some 0) 5 (mkInit 60 1)).st.history ≠ (mkInit 60 1).history ∧
    (on_message "X" (some 0) 5 (mkInit 60 1)).st.history = [("X", [(5, 0)])] := by
  with_unfolding_all decide

/-- Claim C2 (code_bug).  A zero oldest retained price is reachable (the two
ticks of c2msgs are accepted), and when the window then qualifies, line 80
divides by that zero start price: the call faults instead of defensively
skipping, with the history already mutated and last_update left stale. -/
theorem c2_zero_start_price_faults :
    (trimOld c2pre "X" 1 50).head? = some (0, 0) ∧
    2 < (trimOld c2pre "X" 1 50).length ∧
    c2pre.lookback * (4/5) ≤ 50 - 0 ∧
    (on_message "X" (some 1) 50 c2pre).fault = true ∧
    (on_message "X" (some 1) 50 c2pre).emitted = none ∧
    (on_message "X" (some 1) 50 c2pre).st.lastUpdate = c2pre.lastUpdate ∧
    histGet (on_message "X" (some 1) 50 c2pre).st.history "X" = [(0, 0), (10, 1), (50, 1)] := by
  have h : c2pre = ⟨[], [], [("X", [(0, 0), (10, 1)])], [], false, 0, 60, 1, 10⟩ := by
    rw [c2pre, c2run_eval]
  rw [h]
  with_unfolding_all decide

/-- Claim C3 (confirmed).  Under the sample-count gate, the coverage gate, a
fresh interval, a nonzero start price and a positive threshold: a move of
exactly plus threshold is routed to the positive ledger, exactly minus
threshold to the negative ledger, a move strictly inside the band emits
nothing, and no single tick ever touches both ledgers. -/
theorem c3_threshold_boundary (data : St) (sym : String) (v now sdt sp : ℚ)
    (hl : 2 < (trimOld data sym v now).length)
    (hh : (trimOld data sym v now).head? = some (sdt, sp))
    (hc : data.lookback * (4/5) ≤ now - sdt)
    (hsp : sp ≠ 0)
    (hf : intervalKey sym now ∉ data.intervals)
    (hpc : 0 < data.percent) :
    ((v - sp) / sp * 100 = data.percent →
      (on_message sym (some v) now data).st.positive =
        (⟨now, sym, (v - sp) / sp * 100, v⟩ :: data.positive).take 50 ∧
      (on_message sym (some v) now data).st.negative = data.negative.take 50) ∧
    ((v - sp) / sp * 100 = -data.percent →
      (on_message sym (some v) now data).st.negative =
        (⟨now, sym, (v - sp) / sp * 100, v⟩ :: data.negative).take 50 ∧
      (on_message sym (some v) now data).st.positive = data.positive.take 50) ∧
    (|(v - sp) / sp * 100| < data.percent →
      (on_message sym (some v) now data).emitted = none ∧
      (on_message sym (some v) now data).st.positive = data.positive.take 50 ∧
      (on_message sym (some v) now data).st.negative = data.negative.take 50) ∧
    ((on_message sym (some v) now data).st.positive = data.positive.take 50 ∨
     (on_message sym (some v) now data).st.negative = data.negative.take 50) := by
  have hE := momentumCalc_eq data.lookback data.percent sym v now sdt sp
    (trimOld data sym v now) (afterHist data sym v now) hl hh hc hsp hf
  refine ⟨?_, ?_, ?_, ?_⟩
  · intro heq
    have hge : data.percent ≤ (v - sp) / sp * 100 := le_of_eq heq.symm
    rw [on_message_eval (hE.trans (if_pos hge))]
    exact ⟨rfl, rfl⟩
  · intro heq
    have h1 : ¬ data.percent ≤ (v - sp) / sp * 100 := by
      rw [heq]; rw [not_le]; linarith
    have h2 : (v - sp) / sp * 100 ≤ -data.percent := le_of_eq heq
    rw [on_message_eval (hE.trans ((if_neg h1).trans (if_pos h2)))]
    exact ⟨rfl, rfl⟩
  · intro habs
    obtain ⟨hgt, hlt2⟩ := abs_lt.mp habs
    have h1 : ¬ data.percent ≤ (v - sp) / sp * 100 := not_le.mpr hlt2
    have h2 : ¬ (v - sp) / sp * 100 ≤ -data.percent := not_le.mpr hgt
    rw [on_message_eval (hE.trans ((if_neg h1).trans (if_neg h2)))]
    exact ⟨rfl, rfl, rfl⟩
  · by_cases hge : data.percent ≤ (v - sp) / sp * 100
    · right
      rw [on_message_eval (hE.trans (if_pos hge))]
      rfl
    · by_cases hle : (v - sp) / sp * 100 ≤ -data.percent
      · left
        rw [on_message_eval (hE.trans ((if_neg hge).trans (if_pos hle)))]
        rfl
      · left
        rw [on_message_eval (hE.trans ((if_neg hge).trans (if_neg hle)))]
        rfl

/-- Witness for C3: from wdata, a tick at price 101 at t=50 is a move of
exactly plus one percent — the configured threshold — and lands in the
positive ledger. -/
theorem c3_threshold_boundary_witness :
    (on_message "X" (some 101) 50 wdata).st.positive =
      (⟨50, "X", ((101 : ℚ) - 100) / 100 * 100, 101⟩ :: wdata.positive).take 50 ∧
    (on_message "X" (some 101) 50 wdata).st.negative = wdata.negative.take 50 :=
  (c3_threshold_boundary wdata "X" 101 50 0 100
    (by with_unfolding_all decide) (by with_unfolding_all decide)
    (by with_unfolding_all decide) (by with_unfolding_all decide)
    (by with_unfolding_all decide) (by with_unfolding_all decide)).1
    (by with_unfolding_all decide)

/-- Claim C4 (confirmed).  If the oldest retained sample is younger than
0.8 times the lookback, the tick emits nothing at all — no alert, no fault,
no ledger growth, no key consumption — whatever the price move. -/
theorem c4_coverage_gate (data : St) (sym : String) (v now sdt sp : ℚ)
    (hh : (trimOld data sym v now).head? = some (sdt, sp))
    (hlt : now - sdt < data.lookback * (4/5)) :
    (on_message sym (some v) now data).emitted = none ∧
    (on_message sym (some v) now data).fault = false ∧
    (on_message sym (some v) now data).st.positive = data.positive.take 50 ∧
    (on_message sym (some v) now data).st.negative = data.negative.take 50 ∧
    (on_message sym (some v) now data).st.intervals = data.intervals := by
  rw [on_message_eval (momentumCalc_nocov data.lookback data.percent sym v now sdt sp
    (trimOld data sym v now) (afterHist data sym v now) hh hlt)]
  exact ⟨rfl, rfl, rfl, rfl, rfl⟩

/-- Witness for C4: from wdata, a doubling of the price at t=40 (span 40 of
the required 48 seconds) emits nothing. -/
theorem c4_coverage_gate_witness :
    (on_message "X" (some 200) 40 wdata).emitted = none ∧
    (on_message "X" (some 200) 40 wdata).fault = false ∧
    (on_message "X" (some 200) 40 wdata).st.positive = wdata.positive.take 50 ∧
    (on_message "X" (some 200) 40 wdata).st.negative = wdata.negative.take 50 ∧
    (on_message "X" (some 200) 40 wdata).st.intervals = wdata.intervals :=
  c4_coverage_gate wdata "X" 200 40 0 100
    (by with_unfolding_all decide) (by with_unfolding_all decide)

/-- Claim C5 (corrected).  First part: along any delivered tick stream from
any state, at most one alert is ever emitted per symbol and wall-clock
minute label.  Second part: a tick passing every gate whose move reaches the
threshold in absolute value emits an alert, provided its symbol-and-minute
key is still fresh — the proviso the original claim lacks: a key recorded at
the same HH:MM of an earlier day (see the counterexample) also blocks the
alert, so "a qualifying tick in the following minute" only emits during the
first day of a session. -/
theorem c5_dedup_per_interval :
    (∀ (msgs : List Msg) (s : St) (sym : String) (m : ℤ),
      ((runTicks msgs s).2.filter fun a => decide (keyOf a = (sym, m))).length ≤ 1) ∧
    (∀ (data : St) (sym : String) (v now sdt sp : ℚ),
      2 < (trimOld data sym v now).length →
      (trimOld data sym v now).head? = some (sdt, sp) →
      data.lookback * (4/5) ≤ now - sdt →
      sp ≠ 0 →
      intervalKey sym now ∉ data.intervals →
      0 < data.percent →
      data.percent ≤ |(v - sp) / sp * 100| →
      (on_message sym (some v) now data).emitted =
        some ⟨now, sym, (v - sp) / sp * 100, v⟩) := by
  constructor
  · intro msgs s sym m
    exact pairwise_key_filter_le_one (sym, m) _ (runTicks_log_keys msgs s).1
  · intro data sym v now sdt sp hl hh hc hsp hf hpc habs
    obtain ⟨d, hm⟩ := momentumCalc_qualify data.lookback data.percent sym v now sdt sp
      (trimOld data sym v now) (afterHist data sym v now) hl hh hc hsp hf hpc habs
    rw [on_message_eval hm]
    rfl

/-- Witness for C5: from wdata, a two-percent move at t=50 with a fresh key
emits its alert. -/
theorem c5_dedup_per_interval_witness :
    (on_message "X" (some 102) 50 wdata).emitted =
      some ⟨50, "X", ((102 : ℚ) - 100) / 100 * 100, 102⟩ :=
  c5_dedup_per_interval.2 wdata "X" 102 50 0 100
    (by with_unfolding_all decide) (by with_unfolding_all decide)
    (by with_unfolding_all decide) (by with_unfolding_all decide)
    (by with_unfolding_all decide) (by with_unfolding_all decide)
    (by with_unfolding_all decide)

/-- Counterexample to C5 as stated: after the c5msgs session, the tick at
t=86480 is fully qualifying and falls in the minute following the 86450
alert, yet emits nothing — its HH:MM key was consumed by the alert at t=110
of the previous day.  The whole seven-tick run emits two alerts where the
claim predicts three. -/
theorem c5_counterexample :
    minuteOfDay 86480 = minuteOfDay 86450 + 1 ∧
    2 < (trimOld c5pre "X" 102 86480).length ∧
    (trimOld c5pre "X" 102 86480).head? = some (86430, 100) ∧
    c5pre.lookback * (4/5) ≤ 86480 - 86430 ∧
    c5pre.percent ≤ ((102 : ℚ) - 100) / 100 * 100 ∧
    intervalKey "X" 86480 = intervalKey "X" 110 ∧
    (on_message "X" (some 102) 86480 c5pre).emitted = none ∧
    (runTicks (c5msgs ++ [⟨"X", some 102, 86480⟩]) (mkInit 60 1)).2.length = 2 := by
  have hlit : c5pre = ⟨[⟨86450, "X", 2, 102⟩, ⟨110, "X", 2, 102⟩], [],
      [("X", [(86400, 100), (86430, 100), (86450, 102)])], [("X", 0), ("X", 1)],
      false, 0, 60, 1, 86450⟩ := by
    rw [c5pre, c5run_eval]
  refine ⟨by with_unfolding_all decide, ?_, ?_, ?_, ?_,
    by with_unfolding_all decide, ?_, ?_⟩
  · rw [hlit]
    norm_num [trimOld, histGet, histSet, List.find?, List.filter]
  · rw [hlit]
    norm_num [trimOld, histGet, histSet, List.find?, List.filter]
  · rw [hlit]
    norm_num
  · rw [hlit]
    norm_num
  · rw [c5next_eval]
  · rw [runTicks_append, c5run_eval]
    have hnext : on_message "X" (some 102) 86480
        (⟨[⟨86450, "X", 2, 102⟩, ⟨110, "X", 2, 102⟩], [],
          [("X", [(86400, 100), (86430, 100), (86450, 102)])], [("X", 0), ("X", 1)],
          false, 0, 60, 1, 86450⟩ : St) =
        ⟨⟨[⟨86450, "X", 2, 102⟩, ⟨110, "X", 2, 102⟩], [],
          [("X", [(86430, 100), (86450, 102), (86480, 102)])], [("X", 0), ("X", 1)],
          false, 0, 60, 1, 86480⟩, false, none⟩ := by
      rw [← hlit]
      exact c5next_eval
    simp only [runTicks, hnext, Option.toList, List.append_nil, List.nil_append]
    rfl

/-- Claim C6 (confirmed).  After ingesting a priced tick, every sample kept
for that symbol is within the lookback window ending at the tick's time, and
the kept sequence is still in non-decreasing time order, given that history
was ordered and the new tick is not older than what it joins. -/
theorem c6_window_invariant (data : St) (sym : String) (v now : ℚ)
    (hpw : List.Pairwise (fun a b : ℚ × ℚ => a.1 ≤ b.1) (histGet data.history sym))
    (hle : ∀ x ∈ histGet data.history sym, x.1 ≤ now) :
    (∀ x ∈ histGet (on_message sym (some v) now data).st.history sym,
      now - data.lookback ≤ x.1) ∧
    List.Pairwise (fun a b : ℚ × ℚ => a.1 ≤ b.1)
      (histGet (on_message sym (some v) now data).st.history sym) := by
  rw [on_message_history, histGet_histSet]
  constructor
  · intro x hx
    simpa using (List.mem_filter.mp hx).2
  · apply List.Pairwise.sublist (List.filter_sublist _)
    rw [List.pairwise_append]
    refine ⟨hpw, by simp, ?_⟩
    intro a ha b hb
    have hb' : b = (now, v) := by simpa using hb
    subst hb'
    exact hle a ha

/-- Witness for C6: the invariant instantiated at wdata with a tick at t=50. -/
theorem c6_window_invariant_witness :
    (∀ x ∈ histGet (on_message "X" (some 102) 50 wdata).st.history "X",
      (50 : ℚ) - wdata.lookback ≤ x.1) ∧
    List.Pairwise (fun a b : ℚ × ℚ => a.1 ≤ b.1)
      (histGet (on_message "X" (some 102) 50 wdata).st.history "X") :=
  c6_window_invariant wdata "X" 102 50
    (by with_unfolding_all decide) (by with_unfolding_all decide)

/-- Claim C7 (confirmed).  Ledger maintenance: folding sixty insertions into
an empty ledger leaves exactly the fifty most recent alerts, newest first;
and every non-raising on_message call leaves both ledgers at fifty entries
or fewer (lines 99-100 truncate on every pass). -/
theorem c7_ledger_cap :
    (∀ l : List Alert, l.length = 60 →
      l.foldl (fun acc a => ledgerInsert a acc) [] = l.reverse.take 50 ∧
      (l.foldl (fun acc a => ledgerInsert a acc) []).length = 50) ∧
    (∀ (sym : String) (v now : ℚ) (data : St),
      (on_message sym (some v) now data).fault = false →
      (on_message sym (some v) now data).st.positive.length ≤ 50 ∧
      (on_message sym (some v) now data).st.negative.length ≤ 50) := by
  constructor
  · intro l hlen
    refine ⟨foldl_ledgerInsert l, ?_⟩
    rw [foldl_ledgerInsert l]
    simp [List.length_take, hlen]
  · intro sym v now data hnf
    cases hm : momentumCalc data.lookback data.percent sym v now (trimOld data sym v now)
        (afterHist data sym v now) with
    | none => rw [on_message_fault hm] at hnf; exact absurd hnf (by simp)
    | some p =>
      obtain ⟨d, e⟩ := p
      rw [on_message_eval hm]
      exact ⟨List.length_take_le _ _, List.length_take_le _ _⟩

/-- Sixty pairwise distinct alerts for the ledger-cap witness. -/
def w60 : List Alert :=
  (List.range 60).map fun i => ⟨(i : ℚ), "X", 0, 0⟩

/-- Witness for C7: the sixty-alert instance, plus the cap after a concrete
non-raising call. -/
theorem c7_ledger_cap_witness :
    (w60.foldl (fun acc a => ledgerInsert a acc) [] = w60.reverse.take 50 ∧
      (w60.foldl (fun acc a => ledgerInsert a acc) []).length = 50) ∧
    ((on_message "X" (some 102) 50 wdata).st.positive.length ≤ 50 ∧
      (on_message "X" (some 102) 50 wdata).st.negative.length ≤ 50) :=
  ⟨c7_ledger_cap.1 w60 (by with_unfolding_all decide),
   c7_ledger_cap.2 "X" 102 50 wdata (by with_unfolding_all decide)⟩

/-- Claim C8 (confirmed).  When fewer than three samples remain after the
append-and-trim, the tick emits nothing: no alert, no fault (line 80 is
never reached), no ledger growth, no key consumption. -/
theorem c8_min_samples_gate (data : St) (sym : String) (v now : ℚ)
    (hl : (trimOld data sym v now).length < 3) :
    (on_message sym (some v) now data).emitted = none ∧
    (on_message sym (some v) now data).fault = false ∧
    (on_message sym (some v) now data).st.positive = data.positive.take 50 ∧
    (on_message sym (some v) now data).st.negative = data.negative.take 50 ∧
    (on_message sym (some v) now data).st.intervals = data.intervals := by
  have hl' : ¬ 2 < (trimOld data sym v now).length := by omega
  rw [on_message_eval (momentumCalc_short data.lookback data.percent sym v now
    (trimOld data sym v now) (afterHist data sym v now) hl')]
  exact ⟨rfl, rfl, rfl, rfl, rfl⟩

/-- Witness for C8: from wdata, a tick at t=100 leaves only itself in the
window (one sample), so even a quintupled price emits nothing. -/
theorem c8_min_samples_gate_witness :
    (on_message "X" (some 500) 100 wdata).emitted = none ∧
    (on_message "X" (some 500) 100 wdata).fault = false ∧
    (on_message "X" (some 500) 100 wdata).st.positive = wdata.positive.take 50 ∧
    (on_message "X" (some 500) 100 wdata).st.negative = wdata.negative.take 50 ∧
    (on_message "X" (some 500) 100 wdata).st.intervals = wdata.intervals :=
  c8_min_samples_gate wdata "X" 500 100 (by with_unfolding_all decide)

/-- Claim C9 (confirmed).  The interval key of line 81 repeats with period
one day (86400 seconds) because the HH:MM rendering drops the date; the
seen-interval set never shrinks across calls; and concretely, after the
day-zero alert of c9msgs, a fully qualifying move at the same wall-clock
minute of day one is suppressed, the five-tick run having emitted exactly
one alert. -/
theorem c9_minute_key_no_date :
    (∀ (sym : String) (t : ℚ), intervalKey sym (t + 86400) = intervalKey sym t) ∧
    (∀ (sym : String) (ltp : Option ℚ) (now : ℚ) (data : St),
      ∀ k ∈ data.intervals, k ∈ (on_message sym ltp now data).st.intervals) ∧
    intervalKey "X" 86450 = intervalKey "X" 50 ∧
    intervalKey "X" 86450 ∈ c9pre.intervals ∧
    2 < (trimOld c9pre "X" 102 86450).length ∧
    (trimOld c9pre "X" 102 86450).head? = some (86400, 100) ∧
    c9pre.lookback * (4/5) ≤ 86450 - 86400 ∧
    c9pre.percent ≤ ((102 : ℚ) - 100) / 100 * 100 ∧
    (on_message "X" (some 102) 86450 c9pre).emitted = none ∧
    (runTicks c9msgs (mkInit 60 1)).2.length = 1 := by
  have hlit : c9pre = ⟨[⟨50, "X", 2, 102⟩], [], [("X", [(86400, 100), (86430, 100)])],
      [("X", 0)], false, 0, 60, 1, 86430⟩ := by
    rw [c9pre, c9run_eval]
  refine ⟨?_, ?_, by with_unfolding_all decide, ?_, ?_, ?_, ?_, ?_, ?_, ?_⟩
  · intro sym t
    unfold intervalKey
    rw [minuteOfDay_add_day]
  · exact fun sym ltp now data k hk => on_message_intervals_mono sym ltp now data k hk
  · rw [hlit]
    with_unfolding_all decide
  · rw [hlit]
    norm_num [trimOld, histGet, histSet, List.find?, List.filter]
  · rw [hlit]
    norm_num [trimOld, histGet, histSet, List.find?, List.filter]
  · rw [hlit]
    norm_num
  · rw [hlit]
    norm_num
  · rw [c9next_eval]
  · rw [c9run_eval]
    rfl

/-- Witness for C9's monotonicity conjunct: a key present before a call is
still present after it. -/
theorem c9_minute_key_no_date_witness :
    ("X", (0 : ℤ)) ∈ (on_message "X" none 0
      (⟨[], [], [], [("X", 0)], false, 0, 60, 1, 0⟩ : St)).st.intervals :=
  c9_minute_key_no_date.2.1 "X" none 0
    ⟨[], [], [], [("X", 0)], false, 0, 60, 1, 0⟩ ("X", 0) (by decide)

/-- Claim C10 (corrected).  What does hold: every mutation of a priced,
non-raising call happens inside the single locked region of line 64, whose
statement-by-statement composition (history write, momentum calc with
ledger insert, ledger truncations, last_update write) equals the whole
on_message state transformation, and at the end of the region last_update
equals the tick time, so a reader serialised by the lock could only see the
consistent before or after states.  What fails is the claim's premise that
all reads also take the lock — see the counterexample. -/
theorem c10_locked_writer (data : St) (sym : String) (v now : ℚ)
    (hnf : (on_message sym (some v) now data).fault = false) :
    wLast now (wTrunc (wAlert sym v now (wHist sym v now data))) =
      (on_message sym (some v) now data).st ∧
    (on_message sym (some v) now data).st.lastUpdate = now := by
  cases hm : momentumCalc data.lookback data.percent sym v now (trimOld data sym v now)
      (afterHist data sym v now) with
  | none =>
    rw [on_message_fault hm] at hnf
    exact absurd hnf (by simp)
  | some p =>
    obtain ⟨d, e⟩ := p
    rw [on_message_eval hm]
    refine ⟨?_, rfl⟩
    have hw : wAlert sym v now (wHist sym v now data) = d := by
      unfold wAlert
      have hmm : momentumCalc (wHist sym v now data).lookback
          (wHist sym v now data).percent sym v now
          (histGet (wHist sym v now data).history sym) (wHist sym v now data) =
          some (d, e) := by
        show momentumCalc data.lookback data.percent sym v now
          (histGet (histSet data.history sym (trimOld data sym v now)) sym)
          (afterHist data sym v now) = some (d, e)
        rw [histGet_histSet]
        exact hm
      rw [hmm]
    rw [hw]
    rfl

/-- Witness for C10: the decomposition at a concrete emitting call. -/
theorem c10_locked_writer_witness :
    wLast 50 (wTrunc (wAlert "X" 102 50 (wHist "X" 102 50 wdata))) =
      (on_message "X" (some 102) 50 wdata).st ∧
    (on_message "X" (some 102) 50 wdata).st.lastUpdate = 50 :=
  c10_locked_writer wdata "X" 102 50 (by with_unfolding_all decide)

/-- Counterexample to C10 as stated: the UI read loop takes no lock (lines
160-182 contain no with-data_lock), and between writer slices two and three
— a reachable program point of the critical section, since wdata is what
runTicks reaches from the initial state after its two ticks — the fresh
alert is already in the positive ledger while last_update still holds the
previous tick's time, exactly the half-updated snapshot the claim says a
reader can never observe. -/
theorem c10_counterexample :
    readerAcquiresLock = false ∧
    wdata = (runTicks [⟨"X", some 100, 0⟩, ⟨"X", some 100, 30⟩] (mkInit 60 1)).1 ∧
    (wAlert "X" 102 50 (wHist "X" 102 50 wdata)).positive = [⟨50, "X", 2, 102⟩] ∧
    (wAlert "X" 102 50 (wHist "X" 102 50 wdata)).lastUpdate = 30 ∧
    (on_message "X" (some 102) 50 wdata).st.positive = [⟨50, "X", 2, 102⟩] ∧
    (on_message "X" (some 102) 50 wdata).st.lastUpdate = 50 ∧
    wLast 50 (wTrunc (wAlert "X" 102 50 (wHist "X" 102 50 wdata))) =
      (on_message "X" (some 102) 50 wdata).st := by
  with_unfolding_all decide

end MomentumScanner
